import Mathlib

/-!
Verification of the `zat` stream-to-message bridge against its design
specification.  The repository's argument/parameter layer (`src/utils.rs`)
is embedded shallowly below: the clap-declared CLI surface, the
`CliArgs::params` resolution into the tagged `Params` union, and the
`CliArgs::config` override loop.  Rust panics (`unwrap`, `unreachable!`)
are modelled as `Except.error` outcomes; `std::process::exit` is modelled
as an explicit exit outcome carrying the code.  The publish bridge loop
lives in the entry-point file which is not part of the sources at hand,
so it is modelled from the specification where noted.
-/

namespace Zat

/-! ### Data model (`src/utils.rs`, `Params` / `PubParams` / `SubParams`) -/

/-- Reliability QoS level (external `zenoh::qos::Reliability`). -/
inductive Reliability
  | bestEffort
  | reliable
deriving DecidableEq

/-- Congestion-control QoS level (external `zenoh::qos::CongestionControl`). -/
inductive CongestionControl
  | drop
  | block
deriving DecidableEq

/-- Modelled from the spec: the default reliability is BestEffort
(the external `Reliability::default()` used by `unwrap_or_default()`). -/
def Reliability.defaultVal : Reliability := .bestEffort

/-- Modelled from the spec: the congestion-control default is
implementation-defined; the external `CongestionControl::default()` is Drop. -/
def CongestionControl.defaultVal : CongestionControl := .drop

/-- Modelled from the spec: the default priority is the mid-priority level,
the external `Priority::default()` (zenoh `Priority::Data`, numeric value 5). -/
def priorityDefault : Nat := 5

/-- A validated topic expression (`zenoh::key_expr::KeyExpr`): an immutable
string that passed validation. -/
structure KeyExpr where
  str : String
deriving DecidableEq

/-- `PubParams` of `src/utils.rs`: parameters of Write mode. -/
structure PubParams where
  keyexpr : KeyExpr
  reliability : Reliability
  congestion_control : CongestionControl
  priority : Nat
  express : Bool
  buffer : Nat
deriving DecidableEq

/-- `SubParams` of `src/utils.rs`: parameters of Read mode. -/
structure SubParams where
  keyexpr : KeyExpr
  ignore_eof : Bool
deriving DecidableEq

/-- `Params` of `src/utils.rs`: the tagged union of the two modes. -/
inductive Params
  | write (p : PubParams)
  | read (p : SubParams)
deriving DecidableEq

/-- `CliCommand` of `src/utils.rs`: the clap subcommand, after clap has
parsed and validated the raw argument strings. -/
inductive CliCommand
  | read (keyexpr : String) (ignore_eof : Bool)
  | write (keyexpr : String) (reliability : Option String)
      (congestion_control : Option String) (priority : Option Nat)
      (express : Bool) (buffer : Nat)
deriving DecidableEq

/-! ### Topic-expression validation

`CliArgs::params` calls the external `KeyExpr::try_from(keyexpr)`, which
either returns the string unchanged wrapped as a `KeyExpr` or an error
carrying the offending input.  The grammar itself lives in the external
messaging library; it is modelled here from the spec. -/

/-- Split a character list at every occurrence of the separator, keeping
empty segments (the semantics of splitting a string on a separator). -/
def splitOnSlash : List Char → List (List Char)
  | [] => [[]]
  | c :: rest =>
    let r := splitOnSlash rest
    if c = '/' then [] :: r
    else
      match r with
      | [] => [[c]]
      | h :: t => (c :: h) :: t

/-- Modelled from the spec: a single topic-expression segment is well formed
when it is non-empty, a wildcard segment is exactly one or two stars, and a
non-wildcard segment contains no forbidden character. -/
def chunkOk (c : List Char) : Bool :=
  (!c.isEmpty) &&
    (if c.contains '*' then (c == ['*']) || (c == ['*', '*'])
     else (!c.contains '#') && (!c.contains '?') && (!c.contains '$'))

/-- Modelled from the spec: a topic expression is well formed when it is
non-empty and every `/`-separated segment is well formed. -/
def keyExprValid (s : String) : Bool :=
  (!s.toList.isEmpty) && (splitOnSlash s.toList).all chunkOk

/-- The fatal outcomes of `CliArgs::params`: the `KeyExpr::try_from(..).unwrap()`
panic, the `unreachable!()` panics in the QoS token matches, and the
`Priority::try_from(..).unwrap()` panic. -/
inductive ResolveError
  | validation (offending : String)
  | badToken (token : String)
  | badPriority (value : Nat)
deriving DecidableEq

/-- `KeyExpr::try_from` as called by `CliArgs::params`: on success the input
string is kept unchanged; on failure the error carries the offending input. -/
def keyExprTryFrom (s : String) : Except ResolveError KeyExpr :=
  if keyExprValid s then .ok ⟨s⟩ else .error (.validation s)

/-! ### QoS resolution (`CliArgs::params`, Write arm) -/

/-- Modelled from the spec: the external `Priority::try_from(u8)` accepts
exactly the values 1..=7 and fails otherwise. -/
def priorityTryFrom (n : Nat) : Except Nat Nat :=
  if 1 ≤ n ∧ n ≤ 7 then .ok n else .error n

/-- The reliability arm of `CliArgs::params`:
`reliability.map(|s| match ...).unwrap_or_default()`, with the
`unreachable!()` arm modelled as an error. -/
def resolveReliability : Option String → Except ResolveError Reliability
  | none => .ok Reliability.defaultVal
  | some s =>
    if s == "reliable" then .ok .reliable
    else if s == "besteffort" then .ok .bestEffort
    else .error (.badToken s)

/-- The congestion-control arm of `CliArgs::params`. -/
def resolveCongestion : Option String → Except ResolveError CongestionControl
  | none => .ok CongestionControl.defaultVal
  | some s =>
    if s == "drop" then .ok .drop
    else if s == "block" then .ok .block
    else .error (.badToken s)

/-- The priority arm of `CliArgs::params`:
`priority.map(|s| Priority::try_from(*s).unwrap()).unwrap_or_default()`. -/
def resolvePriority : Option Nat → Except ResolveError Nat
  | none => .ok priorityDefault
  | some n =>
    match priorityTryFrom n with
    | .ok p => .ok p
    | .error v => .error (.badPriority v)

/-- The resolved QoS fields of a Write invocation. -/
structure Qos where
  reliability : Reliability
  congestion_control : CongestionControl
  priority : Nat
  express : Bool
deriving DecidableEq

/-- The QoS portion of the Write arm of `CliArgs::params`, evaluated in the
field order of the Rust struct expression (reliability, congestion control,
priority, express). -/
def resolveQos (rel cong : Option String) (prio : Option Nat) (ex : Bool) :
    Except ResolveError Qos :=
  match resolveReliability rel with
  | .error e => .error e
  | .ok r =>
    match resolveCongestion cong with
    | .error e => .error e
    | .ok c =>
      match resolvePriority prio with
      | .error e => .error e
      | .ok p => .ok ⟨r, c, p, ex⟩

/-- `CliArgs::params`: resolves the parsed CLI command into the tagged
`Params` union.  The Rust struct fields are evaluated in declaration order,
so the `KeyExpr::try_from(..).unwrap()` runs before the QoS arms. -/
def params : CliCommand → Except ResolveError Params
  | .read keyexpr ignore_eof =>
    match keyExprTryFrom keyexpr with
    | .error e => .error e
    | .ok ke => .ok (.read ⟨ke, ignore_eof⟩)
  | .write keyexpr rel cong prio ex buf =>
    match keyExprTryFrom keyexpr with
    | .error e => .error e
    | .ok ke =>
      match resolveQos rel cong prio ex with
      | .error e => .error e
      | .ok q =>
        .ok (.write ⟨ke, q.reliability, q.congestion_control, q.priority,
          q.express, buf⟩)

/-- Outcome of the process start-up: either a fatal exit (a panic while
resolving parameters, before any session operation) or a bridge dispatched
on the resolved `Params`. -/
inductive MainOutcome
  | fatalExit (exitCode : Int) (err : ResolveError)
  | bridge (p : Params)
deriving DecidableEq

/-- Modelled from the spec: the entry point resolves `Params` before any
session operation; a failed resolution is a Rust panic, which terminates
the process with the non-zero exit code 101 before a session exists. -/
def mainDispatch (cmd : CliCommand) : MainOutcome :=
  match params cmd with
  | .error e => .fatalExit 101 e
  | .ok p => .bridge p

/-- The raw key-expression string of a parsed CLI command. -/
def CliCommand.keyexprStr : CliCommand → String
  | .read k _ => k
  | .write k _ _ _ _ _ => k

/-- The validated key-expression string carried by resolved parameters. -/
def Params.keyexprStr : Params → String
  | .write p => p.keyexpr.str
  | .read p => p.keyexpr.str

/-! ### The clap argument layer of the Write subcommand

`src/utils.rs` declares the Write arguments with closed-set value parsers
(`value_parser(["reliable", "besteffort"])` and so on) and
`default_value = "32768"` for the buffer.  The declarative clap behaviour is
embedded as an explicit parse step from raw optional argument strings. -/

/-- The raw command-line strings of a Write invocation, before clap
validation; a `none` field means the flag was not supplied. -/
structure RawWriteArgs where
  keyexpr : String
  reliability : Option String
  congestion_control : Option String
  priority : Option String
  express : Bool
  buffer : Option String
deriving DecidableEq

/-- The closed token set of `--reliability` (`value_parser` in `src/utils.rs`). -/
def reliabilityTokens : List String := ["reliable", "besteffort"]

/-- The closed token set of `--congestion-control`. -/
def congestionTokens : List String := ["drop", "block"]

/-- The closed token set of `--priority`. -/
def priorityTokens : List String := ["1", "2", "3", "4", "5", "6", "7"]

/-- The numeric value of a decimal digit character, when it is one. -/
def charDigit (c : Char) : Option Nat :=
  if '0' ≤ c ∧ c ≤ '9' then some (c.toNat - 48) else none

/-- Accumulate the decimal value of a digit string. -/
def digitsVal : List Char → Nat → Option Nat
  | [], acc => some acc
  | c :: rest, acc =>
    match charDigit c with
    | some d => digitsVal rest (acc * 10 + d)
    | none => none

/-- Parse a non-empty all-digit string as a natural number (the behaviour of
clap's unsigned-integer value parser; machine-width overflow is not reached
by any input considered here). -/
def strToNat (s : String) : Option Nat :=
  match s.toList with
  | [] => none
  | l => digitsVal l 0

/-- Clap validation of an optional argument against a closed token set:
an absent flag passes, a present one must be one of the tokens. -/
def parseClosedSet (tokens : List String) :
    Option String → Except String (Option String)
  | none => .ok none
  | some s => if tokens.contains s then .ok (some s) else .error s

/-- Clap validation of `--priority`: the token must be one of `"1"`..`"7"`
and is converted to its numeric value. -/
def parsePriorityArg : Option String → Except String (Option Nat)
  | none => .ok none
  | some s =>
    if priorityTokens.contains s then
      match strToNat s with
      | some n => .ok (some n)
      | none => .error s
    else .error s

/-- Clap handling of `--buffer`: `default_value = "32768"` when absent,
otherwise the string is parsed as an unsigned integer with no further
range restriction. -/
def parseBufferArg : Option String → Except String Nat
  | none => .ok 32768
  | some s =>
    match strToNat s with
    | some n => .ok n
    | none => .error s

/-- Clap parsing of the Write subcommand from raw argument strings into
`CliCommand.write`, per the attributes in `src/utils.rs`. -/
def parseWrite (a : RawWriteArgs) : Except String CliCommand :=
  match parseClosedSet reliabilityTokens a.reliability with
  | .error e => .error e
  | .ok r =>
    match parseClosedSet congestionTokens a.congestion_control with
    | .error e => .error e
    | .ok c =>
      match parsePriorityArg a.priority with
      | .error e => .error e
      | .ok p =>
        match parseBufferArg a.buffer with
        | .error e => .error e
        | .ok b => .ok (.write a.keyexpr r c p a.express b)

/-! ### The Publish Bridge loop -/

/-- The read/publish loop, with a fuel bound on the number of iterations:
while input remains and the chunk size is positive, publish the first
`chunkSize` bytes and continue on the rest.  When the chunk size is zero a
read returns zero bytes, which the loop treats as end of input. -/
def publishLoop (chunkSize : Nat) : Nat → List Nat → List (List Nat)
  | _, [] => []
  | 0, _ :: _ => []
  | fuel + 1, b :: rest =>
    if chunkSize = 0 then []
    else ((b :: rest).take chunkSize) ::
      publishLoop chunkSize fuel ((b :: rest).drop chunkSize)

/-- Modelled from the spec: the Publish Bridge (in the entry-point file,
not among the sources at hand) repeatedly reads up to `chunkSize` bytes
from standard input and synchronously publishes each non-empty read, in
input order; a zero-length read terminates the loop.  The result is the
list of published payloads in publication order.  The loop consumes at
least one byte per iteration, so `input.length` bounds its iterations. -/
def publishChunks (chunkSize : Nat) (input : List Nat) : List (List Nat) :=
  publishLoop chunkSize input.length input

/-! ### The `--cfg` override loop (`CliArgs::config`) -/

/-- `str::split_once` at the first occurrence of the separator character:
the pieces before and after it, or `none` when it does not occur. -/
def splitOnceChars (sep : Char) : List Char → Option (List Char × List Char)
  | [] => none
  | c :: rest =>
    if c = sep then some ([], rest)
    else
      match splitOnceChars sep rest with
      | some (k, v) => some (c :: k, v)
      | none => none

/-- `json.split_once(':')` as used by `CliArgs::config`. -/
def splitOnceColon (s : String) : Option (String × String) :=
  match splitOnceChars ':' s.toList with
  | some (k, v) => some (String.mk k, String.mk v)
  | none => none

/-- Outcome of the `--cfg` loop: the updated configuration, or a process
exit with the given code after reporting the offending entry. -/
inductive CfgOutcome (α : Type)
  | ok (cfg : α)
  | exit (code : Int) (entry : String)
deriving DecidableEq

/-- The `--cfg` loop of `CliArgs::config`: each entry is split at the first
`:`; a missing separator or a rejected insertion prints an error naming the
entry and exits the process with code -1, applying no later entry.  The
external `Config::insert_json5` is taken as a parameter. -/
def applyCfg {α : Type} (insert : α → String → String → Except String α)
    (cfg : α) : List String → CfgOutcome α
  | [] => .ok cfg
  | j :: rest =>
    match splitOnceColon j with
    | some (k, v) =>
      match insert cfg k v with
      | .ok cfg2 => applyCfg insert cfg2 rest
      | .error _ => .exit (-1) j
    | none => .exit (-1) j

/-! ### Closed-set membership and resolved values, as total functions -/

/-- An optional reliability token lies in its closed set. -/
def relTokenOk : Option String → Bool
  | none => true
  | some s => (s == "reliable") || (s == "besteffort")

/-- An optional congestion-control token lies in its closed set. -/
def congTokenOk : Option String → Bool
  | none => true
  | some s => (s == "drop") || (s == "block")

/-- An optional priority value lies in 1..7. -/
def prioTokenOk : Option Nat → Bool
  | none => true
  | some n => decide (1 ≤ n) && decide (n ≤ 7)

/-- The reliability value resolution computes on in-set tokens, as a total
function of the token. -/
def relValue : Option String → Reliability
  | none => Reliability.defaultVal
  | some s => if s == "reliable" then .reliable else .bestEffort

/-- The congestion-control value resolution computes on in-set tokens. -/
def congValue : Option String → CongestionControl
  | none => CongestionControl.defaultVal
  | some s => if s == "drop" then .drop else .block

/-- The priority value resolution computes on in-range values. -/
def prioValue : Option Nat → Nat
  | none => priorityDefault
  | some n => n

/-! ### Lemmas about key-expression validation -/

/-- A valid key expression passes `KeyExpr::try_from` unchanged. -/
theorem keyExprTryFrom_valid (k : String) (h : keyExprValid k = true) :
    keyExprTryFrom k = .ok ⟨k⟩ := by
  simp [keyExprTryFrom, h]

/-- An invalid key expression makes `KeyExpr::try_from` fail, carrying the
offending input. -/
theorem keyExprTryFrom_invalid (k : String) (h : keyExprValid k = false) :
    keyExprTryFrom k = .error (.validation k) := by
  simp [keyExprTryFrom, h]

/-- Whenever `KeyExpr::try_from` succeeds, the result wraps the input
string unchanged. -/
theorem keyExprTryFrom_ok (k : String) (ke : KeyExpr)
    (h : keyExprTryFrom k = .ok ke) : ke = ⟨k⟩ := by
  unfold keyExprTryFrom at h
  split at h
  · injection h with h
    exact h.symm
  · exact Except.noConfusion h

/-! ### Lemmas about the QoS resolution arms -/

/-- On an in-set token the reliability arm succeeds with the resolved value. -/
theorem resolveReliability_ok (rel : Option String)
    (h : relTokenOk rel = true) :
    resolveReliability rel = .ok (relValue rel) := by
  cases rel with
  | none => rfl
  | some s =>
    cases h1 : (s == "reliable") with
    | true => simp [resolveReliability, relValue, h1]
    | false =>
      have h2 : (s == "besteffort") = true := by
        simp only [relTokenOk, h1, Bool.false_or] at h
        exact h
      simp [resolveReliability, relValue, h1, h2]

/-- On an in-set token the congestion-control arm succeeds. -/
theorem resolveCongestion_ok (cong : Option String)
    (h : congTokenOk cong = true) :
    resolveCongestion cong = .ok (congValue cong) := by
  cases cong with
  | none => rfl
  | some s =>
    cases h1 : (s == "drop") with
    | true => simp [resolveCongestion, congValue, h1]
    | false =>
      have h2 : (s == "block") = true := by
        simp only [congTokenOk, h1, Bool.false_or] at h
        exact h
      simp [resolveCongestion, congValue, h1, h2]

/-- On an in-range value the priority arm succeeds. -/
theorem resolvePriority_ok (prio : Option Nat)
    (h : prioTokenOk prio = true) :
    resolvePriority prio = .ok (prioValue prio) := by
  cases prio with
  | none => rfl
  | some n =>
    simp only [prioTokenOk, Bool.and_eq_true, decide_eq_true_eq] at h
    simp [resolvePriority, priorityTryFrom, prioValue, h.1, h.2]

/-- On fully in-set tokens the whole QoS resolution succeeds with the
componentwise resolved values. -/
theorem resolveQos_ok (rel cong : Option String) (prio : Option Nat)
    (ex : Bool) (hr : relTokenOk rel = true) (hc : congTokenOk cong = true)
    (hp : prioTokenOk prio = true) :
    resolveQos rel cong prio ex =
      .ok ⟨relValue rel, congValue cong, prioValue prio, ex⟩ := by
  unfold resolveQos
  rw [resolveReliability_ok rel hr, resolveCongestion_ok cong hc,
    resolvePriority_ok prio hp]

/-- A successful reliability arm implies the token was in its set. -/
theorem relTokenOk_of_ok (rel : Option String) (r : Reliability)
    (h : resolveReliability rel = .ok r) : relTokenOk rel = true := by
  cases rel with
  | none => rfl
  | some s =>
    cases h1 : (s == "reliable") with
    | true => simp [relTokenOk, h1]
    | false =>
      cases h2 : (s == "besteffort") with
      | true => simp [relTokenOk, h2]
      | false => simp [resolveReliability, h1, h2] at h

/-- A successful congestion arm implies the token was in its set. -/
theorem congTokenOk_of_ok (cong : Option String) (c : CongestionControl)
    (h : resolveCongestion cong = .ok c) : congTokenOk cong = true := by
  cases cong with
  | none => rfl
  | some s =>
    cases h1 : (s == "drop") with
    | true => simp [congTokenOk, h1]
    | false =>
      cases h2 : (s == "block") with
      | true => simp [congTokenOk, h2]
      | false => simp [resolveCongestion, h1, h2] at h

/-- A successful priority arm implies the value was in range. -/
theorem prioTokenOk_of_ok (prio : Option Nat) (p : Nat)
    (h : resolvePriority prio = .ok p) : prioTokenOk prio = true := by
  cases prio with
  | none => rfl
  | some n =>
    by_cases hn : 1 ≤ n ∧ n ≤ 7
    · simp [prioTokenOk, hn.1, hn.2]
    · simp [resolvePriority, priorityTryFrom, hn] at h

/-- Every priority the resolution can produce lies in 1..7. -/
theorem resolvePriority_bounds (prio : Option Nat) (p : Nat)
    (h : resolvePriority prio = .ok p) : 1 ≤ p ∧ p ≤ 7 := by
  cases prio with
  | none =>
    simp only [resolvePriority] at h
    injection h with h
    rw [← h]
    decide
  | some n =>
    by_cases hn : 1 ≤ n ∧ n ≤ 7
    · simp only [resolvePriority, priorityTryFrom, if_pos hn] at h
      injection h with h
      rw [← h]
      exact hn
    · simp [resolvePriority, priorityTryFrom, hn] at h

/-! ### Lemmas about the publish loop -/

/-- With a positive chunk size and enough fuel, concatenating the published
payloads reconstructs the input. -/
theorem publishLoop_flatten (C : Nat) (hC : 0 < C) :
    ∀ (fuel : Nat) (input : List Nat), input.length ≤ fuel →
      (publishLoop C fuel input).flatten = input := by
  intro fuel
  induction fuel with
  | zero =>
    intro input hlen
    cases input with
    | nil => rfl
    | cons b rest => simp at hlen
  | succ n ih =>
    intro input hlen
    cases input with
    | nil => rfl
    | cons b rest =>
      simp only [List.length_cons] at hlen
      have hle : ((b :: rest).drop C).length ≤ n := by
        simp only [List.length_drop, List.length_cons]
        omega
      rw [publishLoop, if_neg (Nat.pos_iff_ne_zero.mp hC), List.flatten_cons,
        ih _ hle, List.take_append_drop]

/-- With a positive chunk size and enough fuel, the number of published
payloads of a non-empty input is the length divided by the chunk size,
rounded up. -/
theorem publishLoop_length (C : Nat) (hC : 0 < C) :
    ∀ (fuel : Nat) (input : List Nat), input.length ≤ fuel → input ≠ [] →
      (publishLoop C fuel input).length = (input.length + C - 1) / C := by
  intro fuel
  induction fuel with
  | zero =>
    intro input hlen hne
    cases input with
    | nil => exact absurd rfl hne
    | cons b rest => simp at hlen
  | succ n ih =>
    intro input hlen hne
    cases input with
    | nil => exact absurd rfl hne
    | cons b rest =>
      simp only [List.length_cons] at hlen
      rw [publishLoop, if_neg (Nat.pos_iff_ne_zero.mp hC), List.length_cons,
        List.length_cons]
      by_cases hd : (b :: rest).drop C = []
      · have hlen0 : rest.length + 1 ≤ C := by
          have h2 := List.drop_eq_nil_iff.mp hd
          simp only [List.length_cons] at h2
          exact h2
        have h0 : publishLoop C n [] = ([] : List (List Nat)) := by
          cases n <;> rfl
        rw [hd, h0]
        have hdiv : (rest.length + 1 + C - 1) / C = 1 :=
          Nat.div_eq_of_lt_le (by omega) (by omega)
        simp only [List.length_nil]
        omega
      · have hlen2 : ((b :: rest).drop C).length ≤ n := by
          simp only [List.length_drop, List.length_cons]
          omega
        have hCle : C < rest.length + 1 := by
          by_contra hcon
          push_neg at hcon
          exact hd (List.drop_eq_nil_iff.mpr (by
            simp only [List.length_cons]
            omega))
        rw [ih _ hlen2 hd]
        simp only [List.length_drop, List.length_cons]
        have e1 : rest.length + 1 - C + C - 1 = rest.length := by omega
        have e2 : rest.length + 1 + C - 1 = rest.length + C := by omega
        rw [e1, e2, Nat.add_div_right _ hC]

/-! ### Inversion lemmas for `params` -/

/-- Whenever `KeyExpr::try_from` succeeds, the input was valid. -/
theorem keyExprTryFrom_ok_valid (k : String) (ke : KeyExpr)
    (h : keyExprTryFrom k = .ok ke) : keyExprValid k = true := by
  unfold keyExprTryFrom at h
  split at h
  · next hv => exact hv
  · exact Except.noConfusion h

/-- A successful Read resolution yields exactly the Read parameters built
from the command's fields. -/
theorem params_read_ok (k : String) (i : Bool) (p : Params)
    (h : params (.read k i) = .ok p) : p = Params.read ⟨⟨k⟩, i⟩ := by
  simp only [params] at h
  split at h
  · exact Except.noConfusion h
  · next ke heq =>
    injection h with h
    rw [← h, keyExprTryFrom_ok k ke heq]

/-- A successful Write resolution yields exactly the Write parameters built
from the command's fields and the resolved QoS. -/
theorem params_write_ok (k : String) (rel cong : Option String)
    (prio : Option Nat) (ex : Bool) (b : Nat) (p : Params)
    (h : params (.write k rel cong prio ex b) = .ok p) :
    ∃ q : Qos, resolveQos rel cong prio ex = .ok q ∧
      p = Params.write ⟨⟨k⟩, q.reliability, q.congestion_control,
        q.priority, q.express, b⟩ := by
  simp only [params] at h
  split at h
  · exact Except.noConfusion h
  · next ke heq =>
    split at h
    · exact Except.noConfusion h
    · next q heq2 =>
      injection h with h
      refine ⟨q, heq2, ?_⟩
      rw [← h, keyExprTryFrom_ok k ke heq]

/-- Processing a concatenation of override lists: once the prefix succeeds,
processing continues on the suffix from the updated configuration. -/
theorem applyCfg_append (α : Type)
    (insert : α → String → String → Except String α) (cfg cfg2 : α)
    (pre rest : List String) (h : applyCfg insert cfg pre = .ok cfg2) :
    applyCfg insert cfg (pre ++ rest) = applyCfg insert cfg2 rest := by
  induction pre generalizing cfg with
  | nil =>
    simp only [applyCfg] at h
    injection h with h
    rw [List.nil_append, h]
  | cons j pre ih =>
    rw [List.cons_append]
    simp only [applyCfg] at h
    split at h
    · next key val hsp =>
      split at h
      · next c hins =>
        simp only [applyCfg, hsp, hins]
        exact ih c h
      · exact CfgOutcome.noConfusion h
    · exact CfgOutcome.noConfusion h

/-! ### The claims -/

/-- C1: for every non-empty byte sequence fed to Write mode with chunk
size C, the Publish Bridge publishes exactly ceil(len(input)/C) messages,
and concatenating the published payloads in publication order reconstructs
the original input byte-for-byte. -/
theorem publish_bridge_chunk_reassembly (C : Nat) (input : List Nat)
    (hC : 0 < C) (hne : input ≠ []) :
    (publishChunks C input).length = (input.length + C - 1) / C ∧
    (publishChunks C input).flatten = input :=
  ⟨publishLoop_length C hC input.length input le_rfl hne,
   publishLoop_flatten C hC input.length input le_rfl⟩

/-- C1 witness: chunk size 4 on the seven bytes of ABCDEFG gives exactly
ceil(7/4) = 2 publishes whose concatenation is the input. -/
theorem publish_bridge_chunk_reassembly_witness :
    (publishChunks 4 [65, 66, 67, 68, 69, 70, 71]).length =
      ([65, 66, 67, 68, 69, 70, 71].length + 4 - 1) / 4 ∧
    (publishChunks 4 [65, 66, 67, 68, 69, 70, 71]).flatten =
      [65, 66, 67, 68, 69, 70, 71] :=
  publish_bridge_chunk_reassembly 4 [65, 66, 67, 68, 69, 70, 71]
    (by decide) (by decide)

/-- C2: a malformed topic expression makes parameter resolution fail with
the validation error carrying the offending input, before any session
operation, and the process exits non-zero (the panic exit code 101); and a
topic that does resolve is carried through unchanged, never truncated or
auto-corrected. -/
theorem topic_validation_rejects_malformed :
    (∀ cmd : CliCommand, keyExprValid cmd.keyexprStr = false →
      mainDispatch cmd = .fatalExit 101 (.validation cmd.keyexprStr)) ∧
    (∀ (cmd : CliCommand) (p : Params), params cmd = .ok p →
      p.keyexprStr = cmd.keyexprStr) := by
  constructor
  · intro cmd h
    cases cmd with
    | read k i =>
      simp only [CliCommand.keyexprStr] at h ⊢
      simp [mainDispatch, params, keyExprTryFrom_invalid k h]
    | write k rel cong prio ex b =>
      simp only [CliCommand.keyexprStr] at h ⊢
      simp [mainDispatch, params, keyExprTryFrom_invalid k h]
  · intro cmd p h
    cases cmd with
    | read k i =>
      rw [params_read_ok k i p h]
      rfl
    | write k rel cong prio ex b =>
      obtain ⟨q, hq, hp⟩ := params_write_ok k rel cong prio ex b p h
      rw [hp]
      rfl

/-- C2 witness: the malformed expression with an empty segment is rejected
fatally carrying the input, and a well-formed one passes through unchanged. -/
theorem topic_validation_rejects_malformed_witness :
    mainDispatch (.read "a//b" false) =
      .fatalExit 101 (.validation "a//b") ∧
    (Params.read ⟨⟨"zenoh/cat"⟩, true⟩).keyexprStr =
      (CliCommand.read "zenoh/cat" true).keyexprStr :=
  ⟨topic_validation_rejects_malformed.1 (.read "a//b" false) (by rfl),
   topic_validation_rejects_malformed.2 (.read "zenoh/cat" true)
     (Params.read ⟨⟨"zenoh/cat"⟩, true⟩) (by rfl)⟩

/-- C3: whenever any QoS token lies outside its fixed closed set, the
resolution fails with an error rather than producing a QoS value. -/
theorem qos_out_of_set_fails (rel cong : Option String) (prio : Option Nat)
    (ex : Bool)
    (hbad : relTokenOk rel = false ∨ congTokenOk cong = false ∨
      prioTokenOk prio = false) :
    ∃ e, resolveQos rel cong prio ex = .error e := by
  cases hR : resolveReliability rel with
  | error e => exact ⟨e, by unfold resolveQos; rw [hR]⟩
  | ok r =>
    cases hCo : resolveCongestion cong with
    | error e => exact ⟨e, by unfold resolveQos; rw [hR, hCo]⟩
    | ok c =>
      cases hP : resolvePriority prio with
      | error e => exact ⟨e, by unfold resolveQos; rw [hR, hCo, hP]⟩
      | ok p =>
        exfalso
        rcases hbad with hb | hb | hb
        · rw [relTokenOk_of_ok rel r hR] at hb
          exact Bool.noConfusion hb
        · rw [congTokenOk_of_ok cong c hCo] at hb
          exact Bool.noConfusion hb
        · rw [prioTokenOk_of_ok prio p hP] at hb
          exact Bool.noConfusion hb

/-- C3 witness: an out-of-set reliability token makes resolution fail. -/
theorem qos_out_of_set_fails_witness :
    ∃ e, resolveQos (some "foo") none none false = .error e :=
  qos_out_of_set_fails (some "foo") none none false (Or.inl (by rfl))

/-- C4 as stated is violated: a user-supplied buffer value of zero is
accepted by the argument layer and propagated into the Write parameters,
not rejected as a configuration error. -/
theorem buffer_zero_accepted :
    parseWrite ⟨"zenoh/cat", none, none, none, false, some "0"⟩ =
      .ok (.write "zenoh/cat" none none none false 0) ∧
    params (.write "zenoh/cat" none none none false 0) =
      .ok (.write ⟨⟨"zenoh/cat"⟩, .bestEffort, .drop, 5, false, 0⟩) :=
  ⟨rfl, rfl⟩

/-- C4 amended: the buffer defaults to 32768 when absent; a user-supplied
numeric value, zero included, is accepted and propagated unchanged,
neither rejected nor clamped. -/
theorem buffer_default_no_rejection (s : String) (n : Nat)
    (h : parseBufferArg (some s) = .ok n) :
    parseBufferArg none = .ok 32768 ∧ strToNat s = some n := by
  refine ⟨rfl, ?_⟩
  simp only [parseBufferArg] at h
  split at h
  · next m hm =>
    injection h with h
    rw [hm, h]
  · exact Except.noConfusion h

/-- C4 amended witness: the accepted value 0 comes through unchanged. -/
theorem buffer_default_no_rejection_witness :
    parseBufferArg none = .ok 32768 ∧ strToNat "0" = some 0 :=
  buffer_default_no_rejection "0" 0 (by rfl)

/-- C5: an absent reliability token resolves to BestEffort, a present
token resolves reliable to Reliable and besteffort to BestEffort. -/
theorem reliability_token_resolution :
    resolveReliability none = .ok Reliability.bestEffort ∧
    resolveReliability (some "reliable") = .ok Reliability.reliable ∧
    resolveReliability (some "besteffort") = .ok Reliability.bestEffort :=
  ⟨rfl, rfl, rfl⟩

/-- C6: a present in-range priority token resolves to its own value, an
absent one resolves to the default mid priority 5, and every resolved
priority lies in 1..7. -/
theorem priority_from_token_or_default (n : Nat) (h1 : 1 ≤ n) (h7 : n ≤ 7)
    (p : Option Nat) (m : Nat) (hm : resolvePriority p = .ok m) :
    resolvePriority (some n) = .ok n ∧
    resolvePriority none = .ok priorityDefault ∧
    priorityDefault = 5 ∧
    (1 ≤ m ∧ m ≤ 7) := by
  refine ⟨?_, rfl, rfl, resolvePriority_bounds p m hm⟩
  simp [resolvePriority, priorityTryFrom, h1, h7]

/-- C6 witness: the token 3 resolves to 3, the absent token to 5, and the
resolved value 7 is within bounds. -/
theorem priority_from_token_or_default_witness :
    resolvePriority (some 3) = .ok 3 ∧
    resolvePriority none = .ok priorityDefault ∧
    priorityDefault = 5 ∧
    (1 ≤ 7 ∧ 7 ≤ 7) :=
  priority_from_token_or_default 3 (by decide) (by decide) (some 7) 7 (by rfl)

/-- C7: over tokens drawn from the valid closed sets, QoS resolution is a
total deterministic pure function: it always succeeds, and its value is
determined componentwise by the tokens. -/
theorem qos_resolution_total_deterministic (rel cong : Option String)
    (prio : Option Nat) (ex : Bool) (hr : relTokenOk rel = true)
    (hc : congTokenOk cong = true) (hp : prioTokenOk prio = true) :
    resolveQos rel cong prio ex =
      Except.ok ⟨relValue rel, congValue cong, prioValue prio, ex⟩ :=
  resolveQos_ok rel cong prio ex hr hc hp

/-- C7 witness: a fully specified valid token combination resolves to its
componentwise value. -/
theorem qos_resolution_total_deterministic_witness :
    resolveQos (some "reliable") (some "block") (some 3) true =
      Except.ok ⟨relValue (some "reliable"), congValue (some "block"),
        prioValue (some 3), true⟩ :=
  qos_resolution_total_deterministic (some "reliable") (some "block") (some 3)
    true (by rfl) (by rfl) (by rfl)

/-- C8: the resolved value is a tagged union holding exactly one side: a
Read command resolves to Read parameters carrying its key expression and
ignore-EOF flag, a Write command to Write parameters carrying its key
expression, QoS fields and buffer, and no value is both. -/
theorem params_tagged_union :
    (∀ (k : String) (i : Bool) (p : Params),
      params (.read k i) = .ok p → p = Params.read ⟨⟨k⟩, i⟩) ∧
    (∀ (k : String) (rel cong : Option String) (prio : Option Nat) (ex : Bool)
      (b : Nat) (q : Qos) (p : Params),
      resolveQos rel cong prio ex = .ok q →
      params (.write k rel cong prio ex b) = .ok p →
      p = Params.write ⟨⟨k⟩, q.reliability, q.congestion_control, q.priority,
        q.express, b⟩) ∧
    (∀ (sp : SubParams) (pp : PubParams), Params.read sp ≠ Params.write pp) := by
  refine ⟨params_read_ok, ?_, fun sp pp h => Params.noConfusion h⟩
  intro k rel cong prio ex b q p hq h
  obtain ⟨q2, hq2, hp⟩ := params_write_ok k rel cong prio ex b p h
  rw [hq] at hq2
  injection hq2 with hq2
  rw [hp, hq2]

/-- C8 witness: a Read invocation yields exactly Read parameters, a Write
invocation exactly Write parameters, and the two tags are distinct. -/
theorem params_tagged_union_witness :
    Params.read ⟨⟨"zenoh/cat"⟩, true⟩ = Params.read ⟨⟨"zenoh/cat"⟩, true⟩ ∧
    Params.write ⟨⟨"zenoh/cat"⟩, Reliability.bestEffort,
        CongestionControl.drop, 5, false, 32768⟩ =
      Params.write ⟨⟨"zenoh/cat"⟩, Qos.reliability ⟨.bestEffort, .drop, 5, false⟩,
        Qos.congestion_control ⟨.bestEffort, .drop, 5, false⟩,
        Qos.priority ⟨.bestEffort, .drop, 5, false⟩,
        Qos.express ⟨.bestEffort, .drop, 5, false⟩, 32768⟩ ∧
    Params.read ⟨⟨"zenoh/cat"⟩, true⟩ ≠
      Params.write ⟨⟨"zenoh/cat"⟩, .bestEffort, .drop, 5, false, 32768⟩ :=
  ⟨params_tagged_union.1 "zenoh/cat" true (Params.read ⟨⟨"zenoh/cat"⟩, true⟩)
      (by rfl),
   params_tagged_union.2.1 "zenoh/cat" none none none false 32768
      ⟨.bestEffort, .drop, 5, false⟩
      (Params.write ⟨⟨"zenoh/cat"⟩, .bestEffort, .drop, 5, false, 32768⟩)
      (by rfl) (by rfl),
   params_tagged_union.2.2 ⟨⟨"zenoh/cat"⟩, true⟩
      ⟨⟨"zenoh/cat"⟩, .bestEffort, .drop, 5, false, 32768⟩⟩

/-- C9: on clap-validated input (tokens from the closed sets, priority in
1..7, a valid key expression) the Write resolution never reaches a panic:
it totally produces the Write parameters. -/
theorem clap_validated_write_resolution_no_panic (k : String)
    (rel cong : Option String) (prio : Option Nat) (ex : Bool) (b : Nat)
    (hk : keyExprValid k = true) (hr : relTokenOk rel = true)
    (hc : congTokenOk cong = true) (hp : prioTokenOk prio = true) :
    params (.write k rel cong prio ex b) =
      .ok (.write ⟨⟨k⟩, relValue rel, congValue cong, prioValue prio,
        ex, b⟩) := by
  simp only [params]
  rw [keyExprTryFrom_valid k hk, resolveQos_ok rel cong prio ex hr hc hp]

/-- C9 witness: a representative clap-validated Write command resolves
without reaching any panic. -/
theorem clap_validated_write_resolution_no_panic_witness :
    params (.write "zenoh/cat" (some "besteffort") (some "drop") (some 1)
        false 32768) =
      .ok (.write ⟨⟨"zenoh/cat"⟩, relValue (some "besteffort"),
        congValue (some "drop"), prioValue (some 1), false, 32768⟩) :=
  clap_validated_write_resolution_no_panic "zenoh/cat" (some "besteffort")
    (some "drop") (some 1) false 32768 (by rfl) (by rfl) (by rfl) (by rfl)

/-- C10: once a `--cfg` entry is malformed (no `:` separator) or rejected
by the configuration parser, the loop exits the process with code -1
reporting that entry, and no subsequent entry is applied: the outcome does
not depend on the entries after the offending one. -/
theorem cfg_override_fatal_stops (α : Type)
    (insert : α → String → String → Except String α) (cfg cfg2 : α)
    (pre : List String) (bad : String) (post : List String)
    (hpre : applyCfg insert cfg pre = .ok cfg2)
    (hbad : splitOnceColon bad = none ∨
      (∃ key val err, splitOnceColon bad = some (key, val) ∧
        insert cfg2 key val = .error err)) :
    applyCfg insert cfg (pre ++ bad :: post) = .exit (-1) bad := by
  rw [applyCfg_append α insert cfg cfg2 pre (bad :: post) hpre]
  rcases hbad with hsp | ⟨key, val, err, hsp, hins⟩
  · simp only [applyCfg, hsp]
  · simp only [applyCfg, hsp, hins]

/-- C10 witness: after one well-formed entry, an entry without a separator
exits with code -1 naming it, with a further entry pending unapplied. -/
theorem cfg_override_fatal_stops_witness :
    applyCfg (fun (c : Nat) _ _ => Except.ok c) 0
        (["a:1"] ++ "nocolon" :: ["b:2"]) = .exit (-1) "nocolon" :=
  cfg_override_fatal_stops Nat (fun c _ _ => Except.ok c) 0 0 ["a:1"]
    "nocolon" ["b:2"] (by rfl) (Or.inl (by rfl))

end Zat
